import Mathlib

/-!
Verification development for the Robot Data Management (RDM) repository.

The Python sources are shallowly embedded: loaders and the DataManager
facade from rdm/core/__init__.py and rdm/formats/*/__init__.py become
computable Lean functions over an explicit filesystem value, and the
spec claims are settled as theorems about those functions.
-/

namespace RDM

/-- Scalar Python values carried as leaves of the hierarchical data model
(ints, floats, strings, booleans).  Float payloads are opaque integers: the
code under verification never computes with them, it only stores and
retrieves them. -/
inductive PyScalar where
  | int (n : Int)
  | float (payload : Int)
  | str (s : String)
  | bool (b : Bool)
deriving DecidableEq, Repr

/-- NumPy dtypes that arise in the embedded code paths: int64, float64,
bool, unicode strings, byte strings, and the object dtype. -/
inductive Dtype where
  | int64
  | float64
  | boolDt
  | uni
  | bytesS
  | object
deriving DecidableEq, Repr

/-- A NumPy ndarray: dtype, shape, and the flat element list. -/
structure NDArray where
  dtype : Dtype
  shape : List Nat
  data : List PyScalar
deriving DecidableEq, Repr

/-- In-memory hierarchical value (the Dict[str, Any] trees the loaders
exchange): nested string-keyed mappings whose leaves are ndarrays or
scalars.  `bad` stands for a Python value whose coercion to a storable
array raises (for example a ragged nested sequence): it makes the
fallible branches of save/validate reachable in the model. -/
inductive PyValue where
  | dict (items : List (String × PyValue))
  | arr (a : NDArray)
  | scalar (s : PyScalar)
  | bad
deriving Repr

/-- Top-level data dictionaries (Dict[str, Any] in the sources). -/
abbrev PyDict := List (String × PyValue)

/-- On-disk tree node of a hierarchical store (an HDF5 file or a Zarr
store): nested groups whose leaves are datasets. -/
inductive H5Node where
  | group (items : List (String × H5Node))
  | dataset (a : NDArray)
deriving Repr

/-- Paths as component lists (Python pathlib paths, split on separators). -/
abbrev RPath := List String

/-- Final component of a path (pathlib Path.name); empty for the empty path. -/
def pathName (p : RPath) : String := p.getLast?.getD ""

/-- pathlib PurePath.suffix of a file name: the substring from the last dot
on, provided that dot is neither the first nor the last character of the
name; otherwise the empty string. -/
def pySuffix (name : String) : String :=
  let cs := name.toList
  match cs.reverse.findIdx? (fun c => c = '.') with
  | none => ""
  | some j =>
    let i := cs.length - 1 - j
    if 0 < i ∧ i + 1 < cs.length then String.mk (cs.drop i) else ""

/-- pathlib PurePath.with_suffix on a file name: drop the current suffix
(if any) and append the new one. -/
def pyWithSuffix (name : String) (ext : String) : String :=
  let s := pySuffix name
  String.mk (name.toList.take (name.length - s.length)) ++ ext

/-- with_suffix applied to the final component of a path. -/
def withSuffixPath (p : RPath) (ext : String) : RPath :=
  p.dropLast ++ [pyWithSuffix (pathName p) ext]

/-- The FormatType enumeration from rdm/core/__init__.py. -/
inductive FormatType where
  | hdf5
  | zarr
  | rlds
  | lerobot
  | json
  | pickle
  | numpy
  | auto
deriving DecidableEq, Repr

/-- str.lower() of Python, character by character (the suffixes involved
are ASCII). -/
def strToLower (s : String) : String := String.mk (s.toList.map Char.toLower)

/-- One character list starts with another. -/
def listBeginsWith : List Char → List Char → Bool
  | [], _ => true
  | _ :: _, [] => false
  | c :: cs, d :: ds => c = d && listBeginsWith cs ds

/-- str.endswith of Python: the name ends with the given extension. -/
def strEndsWith (s post : String) : Bool :=
  listBeginsWith post.toList.reverse s.toList.reverse

/-- The static suffix table of DataManager._detect_format: a dict lookup
with HDF5 as the default for unknown or missing suffixes. -/
def formatFromSuffix (s : String) : FormatType :=
  if s = ".h5" then .hdf5
  else if s = ".hdf5" then .hdf5
  else if s = ".zarr" then .zarr
  else if s = ".json" then .json
  else if s = ".pkl" then .pickle
  else if s = ".pickle" then .pickle
  else if s = ".npy" then .numpy
  else if s = ".npz" then .numpy
  else .hdf5

/-- DataManager._detect_format: look the lowercased suffix of the path up
in the static table, defaulting to HDF5. -/
def detectFormat (p : RPath) : FormatType :=
  formatFromSuffix (strToLower (pySuffix (pathName p)))

/-- The extension table of DataManager._find_files; formats without an
entry (AUTO, RLDS, LeRobot) get the empty list. -/
def extensionsOf : FormatType → List String
  | .hdf5 => [".h5", ".hdf5"]
  | .zarr => [".zarr"]
  | .json => [".json"]
  | .pickle => [".pkl", ".pickle"]
  | .numpy => [".npy", ".npz"]
  | _ => []

/-- DataManager._get_extension: canonical extension per format, with
".h5" as the default for formats missing from the table. -/
def getExtension : FormatType → String
  | .hdf5 => ".h5"
  | .zarr => ".zarr"
  | .json => ".json"
  | .pickle => ".pkl"
  | .numpy => ".npy"
  | _ => ".h5"

/-- Python str() of a scalar, as used by the HDF5 writer when it degrades
an object-dtype array to a byte-string array. -/
def strOfScalar : PyScalar → String
  | .int n => toString n
  | .float payload => "float:" ++ toString payload
  | .str s => s
  | .bool b => if b then "True" else "False"

/-- np.array([value]) for a single non-array, non-dict value: a
one-element array of the matching dtype (HDF5Loader._recursively_write_group,
line "value = np.array([value])"; same line in the Zarr writer). -/
def npArraySingleton : PyScalar → NDArray
  | .int n => ⟨.int64, [1], [.int n]⟩
  | .float x => ⟨.float64, [1], [.float x]⟩
  | .str s => ⟨.uni, [1], [.str s]⟩
  | .bool b => ⟨.boolDt, [1], [.bool b]⟩

/-- The writers' leaf coercion: an ndarray passes through, any other
single value becomes a one-element array; `bad` stands for a value whose
np.array conversion raises.  The dict case never reaches this function in
the writers (dicts are turned into groups first); it is mapped to failure
to keep the function total. -/
def coerceLeaf : PyValue → Option NDArray
  | .arr a => some a
  | .scalar s => some (npArraySingleton s)
  | .bad => none
  | .dict _ => none

/-- HDF5Loader's object-dtype fallback: every element of an object array
is str()-ed and the result is stored as a byte-string ("S" dtype) array;
np.array over the flat element list makes the result one-dimensional. -/
def stringifyArr (a : NDArray) : NDArray :=
  ⟨.bytesS, [a.data.length], a.data.map (fun s => .str (strOfScalar s))⟩

/-- Leaf handling of HDF5Loader._recursively_write_group: coerce to an
array, then degrade object-dtype arrays to byte-string arrays. -/
def writeLeafH5 (v : PyValue) : Option NDArray :=
  (coerceLeaf v).map (fun a => if a.dtype = .object then stringifyArr a else a)

/-- Leaf handling of ZarrLoader._recursively_write_group: coerce to an
array; Zarr has no object-dtype fallback, and create_dataset on an
object-dtype array raises (no object codec), so that case fails. -/
def writeLeafZarr (v : PyValue) : Option NDArray :=
  match coerceLeaf v with
  | none => none
  | some a => if a.dtype = .object then none else some a

mutual

/-- HDF5Loader._recursively_write_group on a single value: dicts become
groups written recursively, anything else becomes a dataset; `none`
models a raised exception. -/
def writeH5Val : PyValue → Option H5Node
  | .dict items => (writeH5Items items).map .group
  | v => (writeLeafH5 v).map .dataset

/-- HDF5Loader._recursively_write_group over the items of a dict, in
insertion order; the whole write fails if any item fails. -/
def writeH5Items : List (String × PyValue) → Option (List (String × H5Node))
  | [] => some []
  | (k, v) :: rest =>
    match writeH5Val v with
    | none => none
    | some node =>
      match writeH5Items rest with
      | none => none
      | some tail => some ((k, node) :: tail)

end

mutual

/-- ZarrLoader._recursively_write_group on a single value. -/
def writeZarrVal : PyValue → Option H5Node
  | .dict items => (writeZarrItems items).map .group
  | v => (writeLeafZarr v).map .dataset

/-- ZarrLoader._recursively_write_group over the items of a dict. -/
def writeZarrItems : List (String × PyValue) → Option (List (String × H5Node))
  | [] => some []
  | (k, v) :: rest =>
    match writeZarrVal v with
    | none => none
    | some node =>
      match writeZarrItems rest with
      | none => none
      | some tail => some ((k, node) :: tail)

end

mutual

/-- HDF5Loader._recursively_read_group on a single node: groups are read
recursively into dicts, datasets are read as ndarrays. -/
def readH5Node : H5Node → PyValue
  | .group items => .dict (readH5Items items)
  | .dataset a => .arr a

/-- HDF5Loader._recursively_read_group over the entries of a group. -/
def readH5Items : List (String × H5Node) → List (String × PyValue)
  | [] => []
  | (k, n) :: rest => (k, readH5Node n) :: readH5Items rest

end

mutual

/-- ZarrLoader._recursively_read_group on a single node. -/
def readZarrNode : H5Node → PyValue
  | .group items => .dict (readZarrItems items)
  | .dataset a => .arr a

/-- ZarrLoader._recursively_read_group over the entries of a group. -/
def readZarrItems : List (String × H5Node) → List (String × PyValue)
  | [] => []
  | (k, n) :: rest => (k, readZarrNode n) :: readZarrItems rest

end

/-- On-disk content of one filesystem entry.  Hierarchical stores keep
the written group tree; pickle keeps the pickled Python value; the JSON
text is abstracted as the mapping it was written from (no claim depends
on the JSON byte-level array-to-list coercion); npz archives keep their
named arrays; a TFRecord file is summarized by its record count; and
`corruptedFile` stands for bytes no codec can parse (it also stands for
the truncated remains of a failed hierarchical write). -/
inductive FileContent where
  | h5File (root : List (String × H5Node))
  | zarrStore (root : List (String × H5Node))
  | jsonFile (items : PyDict)
  | pickleFile (v : PyValue)
  | npyFile (a : NDArray)
  | npzFile (items : List (String × NDArray))
  | tfrecordFile (numRecords : Nat)
  | corruptedFile
deriving Repr

/-- The filesystem: an association list from paths to contents.  Writes
shadow earlier entries; `fsFiles` deduplicates, so each live file is
enumerated once, as a directory walk would. -/
abbrev Fs := List (RPath × FileContent)

/-- Content at a path, if the file exists. -/
def fsGet : Fs → RPath → Option FileContent
  | [], _ => none
  | (q, c) :: rest, p => if q = p then some c else fsGet rest p

/-- Write (create or overwrite) a file. -/
def setFile (fs : Fs) (p : RPath) (c : FileContent) : Fs := (p, c) :: fs

/-- The existing files, each listed once. -/
def fsFiles (fs : Fs) : List RPath := (fs.map Prod.fst).dedup

/-- `underDir d p`: p lies strictly under directory d (d is a proper
component prefix of p), as for entries produced by Path.rglob. -/
def underDir : RPath → RPath → Bool
  | [], [] => false
  | [], _ :: _ => true
  | _ :: _, [] => false
  | a :: d, b :: q => a = b && underDir d q

/-- Path.relative_to for a path under the directory: drop the directory
components. -/
def relativeTo (p : RPath) (d : RPath) : RPath := p.drop d.length

/-- The error kinds the embedded operations raise:
FileNotFoundError from BaseDataLoader._validate_path, ValueError
"No loader registered" from the DataManager, and DataValidationError
from the loaders. -/
inductive RdmError where
  | fileNotFound (p : RPath)
  | noLoader (fmt : FormatType)
  | validationError (msg : String)
deriving DecidableEq, Repr

/-- BaseDataLoader.__init__: every shipped loader class runs the base
constructor, whose _validate_path raises FileNotFoundError when the bound
path does not exist.  None of the seven loader classes overrides it. -/
def constructLoader (fs : Fs) (p : RPath) : Except RdmError Unit :=
  if (fsGet fs p).isSome then .ok () else .error (.fileNotFound p)

/-- PickleLoader.load post-processing: a non-dict unpickled value is
wrapped as {"data": value}. -/
def pickleAsDict : PyValue → PyDict
  | .dict items => items
  | v => [("data", v)]

/-- np.asanyarray of a saved value, as used by np.save / np.savez: an
ndarray passes through, a single scalar becomes a zero-dimensional
array; `bad` raises.  A dict value would be wrapped as a pickled
zero-dimensional object array by NumPy; that exotic case is mapped to
failure here (no claim exercises it). -/
def npAsAnyArr : PyValue → Option NDArray
  | .arr a => some a
  | .scalar (.int n) => some ⟨.int64, [], [.int n]⟩
  | .scalar (.float x) => some ⟨.float64, [], [.float x]⟩
  | .scalar (.str s) => some ⟨.uni, [], [.str s]⟩
  | .scalar (.bool b) => some ⟨.boolDt, [], [.bool b]⟩
  | .bad => none
  | .dict _ => none

/-- np.asanyarray over all values of a dict (np.savez_compressed(**data)). -/
def npArrItems : PyDict → Option (List (String × NDArray))
  | [] => some []
  | (k, v) :: rest =>
    match npAsAnyArr v with
    | none => none
    | some a =>
      match npArrItems rest with
      | none => none
      | some tail => some ((k, a) :: tail)

/-- RLDSLoader.save: data["episodes"] is iterated and one TFRecord entry
is written per episode; a missing "episodes" key makes the whole dict a
single episode.  Iterating a dict yields its keys, an ndarray yields its
first-axis slices; a scalar or unconvertible value is not iterable and
the write raises. -/
def rldsEpisodeCount (data : PyDict) : Option Nat :=
  match List.lookup "episodes" data with
  | none => some 1
  | some (.dict items) => some items.length
  | some (.arr a) => some (a.shape.headD 0)
  | some (.scalar _) => none
  | some .bad => none

/-- LeRobotLoader._convert_to_lerobot_format: data with an "episodes" key
passes through, otherwise it is wrapped as a one-episode dataset.  The
one-element Python list around the episode is represented by the episode
dict itself (the list layer is not observable by any claim). -/
def lerobotWrapped (data : PyDict) : PyDict :=
  if (List.lookup "episodes" data).isSome then data
  else
    [("episodes", .dict data),
     ("metadata", .dict [("num_episodes", .scalar (.int 1)),
                         ("format", .scalar (.str "lerobot"))])]

/-- Per-format load: FormatType → loader class → loader.load().
The dispatch mirrors the default registrations of
DataManager._register_default_loaders; each arm is that loader's load
method on the modeled content domain.  Reading content written by a
different codec raises inside the external library and is re-raised as
DataValidationError by every loader. -/
def loaderLoad : FormatType → Fs → RPath → Except RdmError PyDict
  | .hdf5, fs, p =>
    match fsGet fs p with
    | some (.h5File root) => .ok (readH5Items root)
    | _ => .error (.validationError "HDF5 loading failed")
  | .zarr, fs, p =>
    match fsGet fs p with
    | some (.zarrStore root) => .ok (readZarrItems root)
    | _ => .error (.validationError "Zarr loading failed")
  | .json, fs, p =>
    match fsGet fs p with
    | some (.jsonFile items) => .ok items
    | _ => .error (.validationError "JSON loading failed")
  | .pickle, fs, p =>
    match fsGet fs p with
    | some (.pickleFile v) => .ok (pickleAsDict v)
    | _ => .error (.validationError "Pickle loading failed")
  | .numpy, fs, p =>
    if pySuffix (pathName p) = ".npz" then
      match fsGet fs p with
      | some (.npzFile items) => .ok (items.map (fun kv => (kv.1, .arr kv.2)))
      | _ => .error (.validationError "NumPy loading failed")
    else
      match fsGet fs p with
      | some (.npyFile a) => .ok [("data", .arr a)]
      | _ => .error (.validationError "NumPy loading failed")
  | .rlds, _, _ =>
    -- No modeled content is a parseable TFRecord stream (a parsed RLDS
    -- dataset holds Python lists, outside the modeled value domain), so
    -- every load on the modeled domain raises DataValidationError.
    .error (.validationError "RLDS loading failed")
  | .lerobot, fs, p =>
    if pySuffix (pathName p) = ".json" then
      match fsGet fs p with
      | some (.jsonFile items) => .ok items
      | _ => .error (.validationError "LeRobot loading failed")
    else .error (.validationError "LeRobot loading failed")
  | .auto, _, _ =>
    -- AUTO is never bound to a loader class in the repository.
    .error (.validationError "no loader bound to AUTO")

/-- np.save appends ".npy" when the file name does not already end in it. -/
def npSaveTarget (p : RPath) : RPath :=
  if strEndsWith (pathName p) ".npy" then p
  else p.dropLast ++ [pathName p ++ ".npy"]

/-- Per-format save: loader.save(data) on the loader bound to `p`.
Hierarchical stores write their serialized tree and re-raise failures as
DataValidationError; JSON and LeRobot dumps never fail on the modeled
domain (their default= serializer str()-s anything unknown); pickle
always succeeds; NumPy dispatches on the ".npz" suffix exactly as the
source does (a multi-key dict saved to a non-.npz path is redirected to
the path with suffix ".npz").  A failed save is modeled as leaving the
filesystem unchanged; no claim inspects a partially written file. -/
def loaderSave : FormatType → Fs → RPath → PyDict → Except RdmError Fs
  | .hdf5, fs, p, data =>
    match writeH5Items data with
    | some root => .ok (setFile fs p (.h5File root))
    | none => .error (.validationError "HDF5 saving failed")
  | .zarr, fs, p, data =>
    match writeZarrItems data with
    | some root => .ok (setFile fs p (.zarrStore root))
    | none => .error (.validationError "Zarr saving failed")
  | .json, fs, p, data => .ok (setFile fs p (.jsonFile data))
  | .pickle, fs, p, data => .ok (setFile fs p (.pickleFile (.dict data)))
  | .numpy, fs, p, data =>
    if pySuffix (pathName p) = ".npz" then
      match npArrItems data with
      | some items => .ok (setFile fs p (.npzFile items))
      | none => .error (.validationError "NumPy saving failed")
    else if data.length = 1 then
      match npAsAnyArr ((data.headD ("", .bad)).2) with
      | some a => .ok (setFile fs (npSaveTarget p) (.npyFile a))
      | none => .error (.validationError "NumPy saving failed")
    else
      match npArrItems data with
      | some items => .ok (setFile fs (withSuffixPath p ".npz") (.npzFile items))
      | none => .error (.validationError "NumPy saving failed")
  | .rlds, fs, p, data =>
    match rldsEpisodeCount data with
    | some n => .ok (setFile fs p (.tfrecordFile n))
    | none => .error (.validationError "RLDS saving failed")
  | .lerobot, fs, p, data => .ok (setFile fs p (.jsonFile (lerobotWrapped data)))
  | .auto, _, _, _ => .error (.validationError "no loader bound to AUTO")

/-- Per-format validate: loader.validate(data) on the loader bound to
`p`.  Every arm is a try/except returning a Bool.  The HDF5 and Zarr
validators open their bound path with mode "w" and write the data into
it, so they return the mutated filesystem as well: on success the path
holds the freshly serialized tree, on failure the truncated/partial
write (modeled as corruptedFile).  The other validators perform no file
I/O. -/
def loaderValidate : FormatType → Fs → RPath → PyDict → Bool × Fs
  | .hdf5, fs, p, data =>
    match writeH5Items data with
    | some root => (true, setFile fs p (.h5File root))
    | none => (false, setFile fs p .corruptedFile)
  | .zarr, fs, p, data =>
    match writeZarrItems data with
    | some root => (true, setFile fs p (.zarrStore root))
    | none => (false, setFile fs p .corruptedFile)
  | .json, fs, _, _ =>
    -- json.dumps with the loader's default= serializer str()-s any
    -- non-JSON value, so it succeeds on the whole modeled domain.
    (true, fs)
  | .pickle, fs, _, _ =>
    -- pickle.dumps succeeds on the whole modeled domain.
    (true, fs)
  | .numpy, fs, _, data =>
    -- np.array(value) is attempted on every non-ndarray value; only the
    -- unconvertible leaf raises (np.array of a dict or scalar succeeds).
    (data.all (fun kv => match kv.2 with | .bad => false | _ => true), fs)
  | .rlds, fs, _, data =>
    -- requires a "steps" key whose value is a list or a dict.
    (match List.lookup "steps" data with
     | some (.dict _) => true
     | _ => false, fs)
  | .lerobot, fs, _, data =>
    -- requires an "episodes" key whose value is a Python list, then
    -- validates each episode; no modeled value is a list.
    (match List.lookup "episodes" data with
     | some _ => false
     | none => false, fs)
  | .auto, fs, _, _ => (false, fs)

/-- The DataManager: the registry of loader bindings (each format bound
to its shipped loader class) and of converter bindings. -/
structure DataManager where
  loaders : List FormatType
  converters : List (FormatType × FormatType)

/-- The seven default loader registrations. -/
def defaultLoaders : List FormatType :=
  [.hdf5, .zarr, .rlds, .lerobot, .json, .pickle, .numpy]

/-- The default converter registrations: all ordered pairs of the seven
formats except identity pairs. -/
def defaultConverters : List (FormatType × FormatType) :=
  (defaultLoaders.product defaultLoaders).filter (fun kv => kv.1 ≠ kv.2)

/-- DataManager(): default loaders and converters registered. -/
def dmDefault : DataManager := ⟨defaultLoaders, defaultConverters⟩

/-- AUTO resolution: replace AUTO by the detected format, leave anything
else unchanged. -/
def resolveFmt (p : RPath) (fmt : FormatType) : FormatType :=
  if fmt = .auto then detectFormat p else fmt

/-- DataManager.load: resolve AUTO, look the loader up (ValueError when
unregistered), construct it (FileNotFoundError when the path is
missing), then load. -/
def DataManager.load (dm : DataManager) (fs : Fs) (p : RPath) (fmt : FormatType) :
    Except RdmError PyDict :=
  let f := resolveFmt p fmt
  if f ∈ dm.loaders then
    match constructLoader fs p with
    | .error e => .error e
    | .ok _ => loaderLoad f fs p
  else .error (.noLoader f)

/-- DataManager.save: look the loader up (no AUTO resolution here — the
source's save does not detect), construct it on the target path, then
save. -/
def DataManager.save (dm : DataManager) (fs : Fs) (data : PyDict) (p : RPath)
    (fmt : FormatType) : Except RdmError Fs :=
  if fmt ∈ dm.loaders then
    match constructLoader fs p with
    | .error e => .error e
    | .ok _ => loaderSave fmt fs p data
  else .error (.noLoader fmt)

/-- DataManager.convert: resolve both AUTO formats, load the source,
then save to the target. -/
def DataManager.convert (dm : DataManager) (fs : Fs) (src dst : RPath)
    (sf tf : FormatType) : Except RdmError Fs :=
  let sf := resolveFmt src sf
  let tf := resolveFmt dst tf
  match dm.load fs src sf with
  | .error e => .error e
  | .ok data => dm.save fs data dst tf

/-- DataManager.validate: resolve AUTO, look the loader up, construct
it, load, then run the loader's validate on the loaded data (the
hierarchical validators mutate the file). -/
def DataManager.validate (dm : DataManager) (fs : Fs) (p : RPath) (fmt : FormatType) :
    Except RdmError (Bool × Fs) :=
  let f := resolveFmt p fmt
  if f ∈ dm.loaders then
    match constructLoader fs p with
    | .error e => .error e
    | .ok _ =>
      match loaderLoad f fs p with
      | .error e => .error e
      | .ok data => .ok (loaderValidate f fs p data)
  else .error (.noLoader f)

/-- One rglob pass of DataManager._find_files: every existing file under
the directory whose name matches the glob pattern "*<ext>", that is,
whose name ends with the extension. -/
def rglobEnds (fs : Fs) (dir : RPath) (ext : String) : List RPath :=
  (fsFiles fs).filter (fun p => underDir dir p && strEndsWith (pathName p) ext)

/-- DataManager._find_files: concatenate the rglob results of every
extension registered for the format (empty extension list for formats
missing from the table). -/
def findFiles (fs : Fs) (dir : RPath) (fmt : FormatType) : List RPath :=
  (extensionsOf fmt).foldr (fun ext acc => rglobEnds fs dir ext ++ acc) []

/-- The per-file target of batch_convert: the source file's path
relative to the source directory, its suffix rewritten to the target
format's extension, joined under the target directory. -/
def targetFor (srcDir tgtDir : RPath) (tf : FormatType) (f : RPath) : RPath :=
  tgtDir ++ withSuffixPath (relativeTo f srcDir) (getExtension tf)

/-- The loop body of DataManager.batch_convert: convert each found file,
record a success, or catch the exception and record the per-file
failure, then continue with the remaining files. -/
def batchGo (dm : DataManager) (sf tf : FormatType) (srcDir tgtDir : RPath) :
    Fs → List RPath → Fs × List (RPath × RPath) × List ((RPath × RPath) × RdmError)
  | fs, [] => (fs, [], [])
  | fs, f :: rest =>
    let tgt := targetFor srcDir tgtDir tf f
    match dm.convert fs f tgt sf tf with
    | .ok fs1 =>
      let r := batchGo dm sf tf srcDir tgtDir fs1 rest
      (r.1, (f, tgt) :: r.2.1, r.2.2)
    | .error e =>
      let r := batchGo dm sf tf srcDir tgtDir fs rest
      (r.1, r.2.1, ((f, tgt), e) :: r.2.2)

/-- DataManager.batch_convert: make the target directory (directories are
implicit in the filesystem model), enumerate the source files once, and
run the conversion loop.  Returns the final filesystem, the successful
(source, target) conversions, and the logged per-file failures. -/
def DataManager.batchConvert (dm : DataManager) (fs : Fs) (srcDir tgtDir : RPath)
    (sf tf : FormatType) :
    Fs × List (RPath × RPath) × List ((RPath × RPath) × RdmError) :=
  batchGo dm sf tf srcDir tgtDir fs (findFiles fs srcDir sf)

/-- Dtypes that the hierarchical stores persist exactly (the spec's
"numeric arrays"): integer, floating and boolean arrays.  Unicode,
byte-string and object arrays are excluded: the object dtype is
stringified (HDF5) or rejected (Zarr), and string dtype support is an
external-library concern not modeled here. -/
def numericDtype : Dtype → Bool
  | .int64 => true
  | .float64 => true
  | .boolDt => true
  | _ => false

mutual

/-- Hierarchical values all of whose leaves are numeric ndarrays. -/
def numericArrLeaves : PyValue → Bool
  | .dict items => numericArrLeavesItems items
  | .arr a => numericDtype a.dtype
  | .scalar _ => false
  | .bad => false

/-- numericArrLeaves over the items of a dict. -/
def numericArrLeavesItems : List (String × PyValue) → Bool
  | [] => true
  | (_, v) :: rest => numericArrLeaves v && numericArrLeavesItems rest

end

/-- A sample int64 array used by the concrete scenarios below. -/
def sampleArr : NDArray := ⟨.int64, [2], [.int 1, .int 2]⟩

/-- The batch-conversion scenario of claim C2: a source directory with
two readable HDF5 files and one corrupted file, and no pre-existing
files under the target directory. -/
def fsBatch : Fs :=
  [(["srcd", "a.h5"], .h5File [("x", .dataset sampleArr)]),
   (["srcd", "b.h5"], .h5File [("y", .dataset sampleArr)]),
   (["srcd", "c.h5"], .corruptedFile)]

/- ------------------------------------------------------------------ -/
/- Helper lemmas shared by the claim theorems.                         -/
/- ------------------------------------------------------------------ -/

theorem detectFormat_ne_auto (p : RPath) : detectFormat p ≠ .auto := by
  unfold detectFormat formatFromSuffix
  split_ifs <;> decide

theorem resolveFmt_resolveFmt (p : RPath) (f : FormatType) :
    resolveFmt p (resolveFmt p f) = resolveFmt p f := by
  by_cases h : f = .auto <;> simp [resolveFmt, h, detectFormat_ne_auto]

/-- The successes and logged failures of the batch loop, taken together,
are exactly one attempt per enumerated file, each paired with its
computed target path. -/
theorem batchGo_attempts_perm (dm : DataManager) (sf tf : FormatType)
    (srcDir tgtDir : RPath) :
    ∀ (files : List RPath) (fs : Fs),
      ((batchGo dm sf tf srcDir tgtDir fs files).2.1 ++
        (batchGo dm sf tf srcDir tgtDir fs files).2.2.map Prod.fst).Perm
        (files.map fun f => (f, targetFor srcDir tgtDir tf f))
  | [], fs => by simp [batchGo]
  | f :: rest, fs => by
    cases hc : dm.convert fs f (targetFor srcDir tgtDir tf f) sf tf with
    | ok fs1 =>
      have ih := batchGo_attempts_perm dm sf tf srcDir tgtDir rest fs1
      simpa [batchGo, hc] using ih.cons (f, targetFor srcDir tgtDir tf f)
    | error e =>
      have ih := batchGo_attempts_perm dm sf tf srcDir tgtDir rest fs
      simpa [batchGo, hc] using
        List.perm_middle.trans (ih.cons (f, targetFor srcDir tgtDir tf f))

/-- Membership in _find_files: exactly the existing files under the
directory whose name ends in one of the format's extensions. -/
theorem mem_findFiles (fs : Fs) (dir : RPath) (fmt : FormatType) (f : RPath) :
    f ∈ findFiles fs dir fmt ↔
      (f ∈ fsFiles fs ∧ underDir dir f = true ∧
        ∃ ext ∈ extensionsOf fmt, strEndsWith (pathName f) ext = true) := by
  unfold findFiles rglobEnds
  induction extensionsOf fmt with
  | nil => simp
  | cons e es ih =>
    simp only [List.foldr_cons, List.mem_append, List.mem_filter, Bool.and_eq_true] at *
    constructor
    · rintro (⟨hmem, hund, hend⟩ | hrec)
      · exact ⟨hmem, hund, e, by simp, hend⟩
      · obtain ⟨hmem, hund, ext, hext, hend⟩ := ih.mp hrec
        exact ⟨hmem, hund, ext, by simp [hext], hend⟩
    · rintro ⟨hmem, hund, ext, hext, hend⟩
      rcases List.mem_cons.mp hext with hext | hext
      · exact Or.inl ⟨hmem, hund, hext ▸ hend⟩
      · exact Or.inr (ih.mpr ⟨hmem, hund, ext, hext, hend⟩)

mutual

/-- Writing then reading an HDF5 tree reproduces a value whose leaves
are all numeric arrays. -/
theorem h5RtVal : ∀ v : PyValue, numericArrLeaves v = true →
    (writeH5Val v).map readH5Node = some v
  | .dict items, h => by
    have hi := h5RtItems items (by simpa [numericArrLeaves] using h)
    cases heq : writeH5Items items with
    | none => rw [heq] at hi; simp at hi
    | some r =>
      rw [heq] at hi
      simp at hi
      simp [writeH5Val, heq, readH5Node, hi]
  | .arr a, h => by
    obtain ⟨d, sh, dt⟩ := a
    have hnum : numericDtype d = true := by simpa [numericArrLeaves] using h
    have hobj : ¬(d = .object) := by
      cases d <;> simp_all [numericDtype]
    simp [writeH5Val, writeLeafH5, coerceLeaf, hobj, readH5Node]
  | .scalar s, h => by simp [numericArrLeaves] at h
  | .bad, h => by simp [numericArrLeaves] at h

/-- Item-level version of h5RtVal. -/
theorem h5RtItems : ∀ l : List (String × PyValue), numericArrLeavesItems l = true →
    (writeH5Items l).map readH5Items = some l
  | [], _ => by simp [writeH5Items, readH5Items]
  | (k, v) :: rest, h => by
    have hsplit := (Bool.and_eq_true _ _).mp (by simpa [numericArrLeavesItems] using h)
    have hv := h5RtVal v hsplit.1
    have hr := h5RtItems rest hsplit.2
    cases heqv : writeH5Val v with
    | none => rw [heqv] at hv; simp at hv
    | some node =>
      cases heqr : writeH5Items rest with
      | none => rw [heqr] at hr; simp at hr
      | some tail =>
        rw [heqv] at hv; rw [heqr] at hr
        simp at hv hr
        simp [writeH5Items, heqv, heqr, readH5Items, hv, hr]

end

mutual

/-- Writing then reading a Zarr tree reproduces a value whose leaves
are all numeric arrays. -/
theorem zarrRtVal : ∀ v : PyValue, numericArrLeaves v = true →
    (writeZarrVal v).map readZarrNode = some v
  | .dict items, h => by
    have hi := zarrRtItems items (by simpa [numericArrLeaves] using h)
    cases heq : writeZarrItems items with
    | none => rw [heq] at hi; simp at hi
    | some r =>
      rw [heq] at hi
      simp at hi
      simp [writeZarrVal, heq, readZarrNode, hi]
  | .arr a, h => by
    obtain ⟨d, sh, dt⟩ := a
    have hnum : numericDtype d = true := by simpa [numericArrLeaves] using h
    have hobj : ¬(d = .object) := by
      cases d <;> simp_all [numericDtype]
    simp [writeZarrVal, writeLeafZarr, coerceLeaf, hobj, readZarrNode]
  | .scalar s, h => by simp [numericArrLeaves] at h
  | .bad, h => by simp [numericArrLeaves] at h

/-- Item-level version of zarrRtVal. -/
theorem zarrRtItems : ∀ l : List (String × PyValue), numericArrLeavesItems l = true →
    (writeZarrItems l).map readZarrItems = some l
  | [], _ => by simp [writeZarrItems, readZarrItems]
  | (k, v) :: rest, h => by
    have hsplit := (Bool.and_eq_true _ _).mp (by simpa [numericArrLeavesItems] using h)
    have hv := zarrRtVal v hsplit.1
    have hr := zarrRtItems rest hsplit.2
    cases heqv : writeZarrVal v with
    | none => rw [heqv] at hv; simp at hv
    | some node =>
      cases heqr : writeZarrItems rest with
      | none => rw [heqr] at hr; simp at hr
      | some tail =>
        rw [heqv] at hv; rw [heqr] at hr
        simp at hv hr
        simp [writeZarrItems, heqv, heqr, readZarrItems, hv, hr]

end

/- ------------------------------------------------------------------ -/
/- Claim theorems.                                                     -/
/- ------------------------------------------------------------------ -/

/-- C7: format detection is a pure function of the path's lowercased
filename suffix through the fixed static table (.h5/.hdf5 to HDF5,
.zarr to Zarr, .json to JSON, .pkl/.pickle to Pickle, .npy/.npz to
NumPy), and any unknown or missing suffix resolves to HDF5 rather than
failing; two paths with the same lowercased suffix always detect to the
same identifier. -/
theorem detect_is_suffix_table_with_default :
    (∀ p : RPath, detectFormat p = formatFromSuffix (strToLower (pySuffix (pathName p))))
    ∧ formatFromSuffix ".h5" = .hdf5 ∧ formatFromSuffix ".hdf5" = .hdf5
    ∧ formatFromSuffix ".zarr" = .zarr ∧ formatFromSuffix ".json" = .json
    ∧ formatFromSuffix ".pkl" = .pickle ∧ formatFromSuffix ".pickle" = .pickle
    ∧ formatFromSuffix ".npy" = .numpy ∧ formatFromSuffix ".npz" = .numpy
    ∧ (∀ s : String,
        s ∉ [".h5", ".hdf5", ".zarr", ".json", ".pkl", ".pickle", ".npy", ".npz"] →
          formatFromSuffix s = .hdf5)
    ∧ (∀ p q : RPath,
        strToLower (pySuffix (pathName p)) = strToLower (pySuffix (pathName q)) →
          detectFormat p = detectFormat q)
    ∧ detectFormat ["foo.zarr"] = .zarr
    ∧ detectFormat ["foo.unknownext"] = .hdf5 := by
  refine ⟨fun p => rfl, by decide, by decide, by decide, by decide, by decide,
    by decide, by decide, by decide, ?_, ?_, by decide, by decide⟩
  · intro s hs
    unfold formatFromSuffix
    split_ifs with h1 h2 h3 h4 h5 h6 h7 h8 <;>
      first
        | rfl
        | (exfalso; apply hs; subst ‹s = _›; decide)
  · intro p q h
    unfold detectFormat
    rw [h]

/-- Witness for C7 at concrete inputs: ".xyz" is not in the table and
detects to HDF5, and two different paths with the same ".h5" suffix
detect identically. -/
theorem detect_is_suffix_table_with_default_witness :
    formatFromSuffix ".xyz" = .hdf5 ∧
    detectFormat ["a.h5"] = detectFormat ["b", "c.h5"] := by
  obtain ⟨-, -, -, -, -, -, -, -, -, hdefault, hdet, -, -⟩ :=
    detect_is_suffix_table_with_default
  exact ⟨hdefault ".xyz" (by decide), hdet ["a.h5"] ["b", "c.h5"] (by decide)⟩

/-- C10: convert with AUTO for both formats behaves identically to
convert with the detected source and target formats: AUTO is resolved
through the same suffix-detection function before any loading or
saving. -/
theorem convert_auto_resolution_equiv (dm : DataManager) (fs : Fs) (src dst : RPath) :
    dm.convert fs src dst .auto .auto =
      dm.convert fs src dst (detectFormat src) (detectFormat dst) := by
  unfold DataManager.convert resolveFmt
  simp [detectFormat_ne_auto]

/-- C3: a save or convert whose target path does not yet exist never
writes output: for any registered target format, DataManager.save fails
with FileNotFoundError raised by the target loader's base-class
constructor check, and DataManager.convert to a missing target path
never returns successfully. -/
theorem save_fresh_path_raises_file_not_found :
    (∀ (dm : DataManager) (fs : Fs) (data : PyDict) (p : RPath) (fmt : FormatType),
        fmt ∈ dm.loaders → fsGet fs p = none →
          dm.save fs data p fmt = .error (.fileNotFound p))
    ∧ (∀ (dm : DataManager) (fs : Fs) (src dst : RPath) (sf tf : FormatType),
        fsGet fs dst = none → ∀ fs1 : Fs, dm.convert fs src dst sf tf ≠ .ok fs1) := by
  constructor
  · intro dm fs data p fmt hreg hnone
    simp [DataManager.save, constructLoader, hreg, hnone]
  · intro dm fs src dst sf tf hnone fs1
    unfold DataManager.convert
    cases hload : dm.load fs src (resolveFmt src sf) with
    | error e => simp [hload]
    | ok data =>
      simp only [hload]
      by_cases hreg : resolveFmt dst tf ∈ dm.loaders
      · simp [DataManager.save, constructLoader, hreg, hnone]
      · simp [DataManager.save, hreg]

/-- Witness for C3 at concrete inputs: saving to the fresh path
["out.h5"] on an empty filesystem raises FileNotFoundError, and a
concrete convert to a fresh target cannot succeed. -/
theorem save_fresh_path_raises_file_not_found_witness :
    dmDefault.save [] [] ["out.h5"] .hdf5 = .error (.fileNotFound ["out.h5"]) ∧
    dmDefault.convert [] ["a.h5"] ["b.h5"] .hdf5 .hdf5 ≠ .ok [] := by
  constructor
  · exact save_fresh_path_raises_file_not_found.1 dmDefault [] [] ["out.h5"] .hdf5
      (by decide) rfl
  · exact save_fresh_path_raises_file_not_found.2 dmDefault [] ["a.h5"] ["b.h5"]
      .hdf5 .hdf5 rfl []

/-- C4: the HDF5 and Zarr validators open their bound path in write
mode: after validate(data), the file at the bound path holds the
serialized form of data when serialization succeeds, and the
truncated/partial remains of the write when it fails — validate
overwrites whatever was there before, for every prior filesystem
state.  The returned boolean is exactly the success of the write. -/
theorem hier_validate_overwrites_bound_path (fs : Fs) (p : RPath) (data : PyDict) :
    (fsGet ((loaderValidate .hdf5 fs p data).2) p =
        some (match writeH5Items data with
              | some root => FileContent.h5File root
              | none => FileContent.corruptedFile))
    ∧ (fsGet ((loaderValidate .zarr fs p data).2) p =
        some (match writeZarrItems data with
              | some root => FileContent.zarrStore root
              | none => FileContent.corruptedFile))
    ∧ ((loaderValidate .hdf5 fs p data).1 = true ↔ (writeH5Items data).isSome = true)
    ∧ ((loaderValidate .zarr fs p data).1 = true ↔ (writeZarrItems data).isSome = true) := by
  refine ⟨?_, ?_, ?_, ?_⟩
  · cases h : writeH5Items data <;> simp [loaderValidate, h, setFile, fsGet]
  · cases h : writeZarrItems data <;> simp [loaderValidate, h, setFile, fsGet]
  · cases h : writeH5Items data <;> simp [loaderValidate, h]
  · cases h : writeZarrItems data <;> simp [loaderValidate, h]

/-- C1 (counterexample): DataManager.validate does not downgrade an
unreadable file to False — on a corrupted but existing HDF5 file it
propagates the DataValidationError raised by load instead of returning
a boolean. -/
theorem dm_validate_raises_on_corrupt_input :
    dmDefault.validate [(["data.h5"], FileContent.corruptedFile)] ["data.h5"] .hdf5 =
      .error (.validationError "HDF5 loading failed") := rfl

/-- C1 (amended): each codec-level validate(data) is total and returns a
boolean — a failing serialization downgrades to False rather than
raising (shown for the two fallible validators; the remaining five are
Boolean-valued by construction).  DataManager.validate, by contrast, is
not total: it returns an error exactly when the resolved format is
unregistered, the path does not exist, or the load fails; only
validation failures on successfully loaded data yield False. -/
theorem codec_validate_total_dm_validate_raises :
    (∀ (fs : Fs) (p : RPath) (data : PyDict),
        writeH5Items data = none → (loaderValidate .hdf5 fs p data).1 = false)
    ∧ (∀ (fs : Fs) (p : RPath) (data : PyDict),
        writeZarrItems data = none → (loaderValidate .zarr fs p data).1 = false)
    ∧ (∀ (dm : DataManager) (fs : Fs) (p : RPath) (fmt : FormatType),
        (∃ e, dm.validate fs p fmt = .error e) ↔
          (resolveFmt p fmt ∉ dm.loaders ∨ fsGet fs p = none ∨
            (∃ e, loaderLoad (resolveFmt p fmt) fs p = .error e))) := by
  refine ⟨?_, ?_, ?_⟩
  · intro fs p data h
    simp [loaderValidate, h]
  · intro fs p data h
    simp [loaderValidate, h]
  · intro dm fs p fmt
    unfold DataManager.validate constructLoader
    by_cases hreg : resolveFmt p fmt ∈ dm.loaders
    · cases hfs : fsGet fs p with
      | none => simp [hreg, hfs]
      | some c =>
        cases hload : loaderLoad (resolveFmt p fmt) fs p with
        | error e => simp [hreg, hfs, hload]
        | ok data => simp [hreg, hfs, hload]
    · simp [hreg]

/-- Witness for C1 at concrete inputs: the HDF5 validator returns False
(not an error) on an unserializable mapping, and DataManager.validate on
an existing corrupted file is in its error case. -/
theorem codec_validate_total_dm_validate_raises_witness :
    (loaderValidate .hdf5 [] ["t.h5"] [("k", PyValue.bad)]).1 = false ∧
    (∃ e, dmDefault.validate [(["d.h5"], FileContent.corruptedFile)] ["d.h5"] .hdf5 =
      .error e) := by
  constructor
  · exact codec_validate_total_dm_validate_raises.1 [] ["t.h5"] [("k", PyValue.bad)] rfl
  · exact (codec_validate_total_dm_validate_raises.2.2 dmDefault
      [(["d.h5"], FileContent.corruptedFile)] ["d.h5"] .hdf5).mpr
      (Or.inr (Or.inr ⟨.validationError "HDF5 loading failed", rfl⟩))

/-- C5 (counterexample): with only the HDF5 loader registered, a convert
request with unregistered target format JSON and a corrupted source
returns the load error, not the unregistered-format error: the source
file was loaded (and its failure surfaced) before the target format was
checked, so the target check is not performed at resolution time before
I/O. -/
theorem convert_loads_source_before_target_check :
    (DataManager.mk [.hdf5] []).convert [(["src.h5"], FileContent.corruptedFile)]
        ["src.h5"] ["dst.json"] .hdf5 .json =
      .error (.validationError "HDF5 loading failed")
    ∧ (DataManager.mk [.hdf5] []).convert [(["src.h5"], FileContent.corruptedFile)]
        ["src.h5"] ["dst.json"] .hdf5 .json ≠ .error (.noLoader .json) := by
  refine ⟨rfl, fun h => ?_⟩
  have h2 : RdmError.validationError "HDF5 loading failed" = RdmError.noLoader .json :=
    Except.error.inj
      (((rfl :
        (DataManager.mk [.hdf5] []).convert [(["src.h5"], FileContent.corruptedFile)]
          ["src.h5"] ["dst.json"] .hdf5 .json =
          .error (.validationError "HDF5 loading failed"))).symm.trans h)
  cases h2

/-- C5 (amended): load, save and validate raise the unregistered-format
error at resolution time, before any file access — their result is the
same for every filesystem — and convert rejects an unregistered source
format the same way; an unregistered target format, however, is only
rejected inside the save step, after the source file has been loaded
(see the counterexample). -/
theorem unregistered_format_rejected_at_resolution :
    (∀ (dm : DataManager) (fs : Fs) (p : RPath) (fmt : FormatType),
        resolveFmt p fmt ∉ dm.loaders →
          dm.load fs p fmt = .error (.noLoader (resolveFmt p fmt)))
    ∧ (∀ (dm : DataManager) (fs : Fs) (data : PyDict) (p : RPath) (fmt : FormatType),
        fmt ∉ dm.loaders → dm.save fs data p fmt = .error (.noLoader fmt))
    ∧ (∀ (dm : DataManager) (fs : Fs) (p : RPath) (fmt : FormatType),
        resolveFmt p fmt ∉ dm.loaders →
          dm.validate fs p fmt = .error (.noLoader (resolveFmt p fmt)))
    ∧ (∀ (dm : DataManager) (fs : Fs) (src dst : RPath) (sf tf : FormatType),
        resolveFmt src sf ∉ dm.loaders →
          dm.convert fs src dst sf tf = .error (.noLoader (resolveFmt src sf))) := by
  refine ⟨?_, ?_, ?_, ?_⟩
  · intro dm fs p fmt h
    simp [DataManager.load, h]
  · intro dm fs data p fmt h
    simp [DataManager.save, h]
  · intro dm fs p fmt h
    simp [DataManager.validate, h]
  · intro dm fs src dst sf tf h
    have hl : dm.load fs src (resolveFmt src sf) =
        .error (.noLoader (resolveFmt src sf)) := by
      simp [DataManager.load, resolveFmt_resolveFmt, h]
    simp [DataManager.convert, hl]

/-- Witness for C5 at concrete inputs: a manager with only the HDF5
loader rejects a JSON load, save, validate and a JSON-source convert
with the unregistered-format error. -/
theorem unregistered_format_rejected_at_resolution_witness :
    (DataManager.mk [.hdf5] []).load [] ["x.json"] .json = .error (.noLoader .json) ∧
    (DataManager.mk [.hdf5] []).save [] [] ["x.json"] .json = .error (.noLoader .json) ∧
    (DataManager.mk [.hdf5] []).validate [] ["x.json"] .json = .error (.noLoader .json) ∧
    (DataManager.mk [.hdf5] []).convert [] ["x.json"] ["y.h5"] .json .hdf5 =
      .error (.noLoader .json) := by
  refine ⟨?_, ?_, ?_, ?_⟩
  · exact unregistered_format_rejected_at_resolution.1
      (DataManager.mk [.hdf5] []) [] ["x.json"] .json (by decide)
  · exact unregistered_format_rejected_at_resolution.2.1
      (DataManager.mk [.hdf5] []) [] [] ["x.json"] .json (by decide)
  · exact unregistered_format_rejected_at_resolution.2.2.1
      (DataManager.mk [.hdf5] []) [] ["x.json"] .json (by decide)
  · exact unregistered_format_rejected_at_resolution.2.2.2
      (DataManager.mk [.hdf5] []) [] ["x.json"] ["y.h5"] .json .hdf5 (by decide)

/-- C6 (counterexample): scalar leaves do not round-trip through the
HDF5 codec: an integer leaf is saved as a one-element array (the writer
wraps every non-array value in np.array([value])), so reading back the
written tree yields the array, not the original scalar. -/
theorem roundtrip_fails_on_scalar_leaf :
    (writeH5Val (.dict [("a", .scalar (.int 5))])).map readH5Node =
        some (.dict [("a", .arr ⟨.int64, [1], [.int 5]⟩)])
    ∧ (writeH5Val (.dict [("a", .scalar (.int 5))])).map readH5Node ≠
        some (.dict [("a", .scalar (.int 5))]) := by
  refine ⟨rfl, fun h => ?_⟩
  have h2 :
      (PyValue.dict [("a", .arr ⟨.int64, [1], [.int 5]⟩)]) =
        (PyValue.dict [("a", .scalar (.int 5))]) :=
    Option.some.inj
      (((rfl :
        (writeH5Val (.dict [("a", .scalar (.int 5))])).map readH5Node =
          some (.dict [("a", .arr ⟨.int64, [1], [.int 5]⟩)]))).symm.trans h)
  simp at h2

/-- C6 (amended): for the two recursive tree codecs (HDF5 and Zarr),
every hierarchical value whose leaves are all numeric arrays is
reproduced structurally (same keys, same array dtypes, shapes and
values) by reading back the written tree.  Scalar leaves — integers,
floats, strings — are coerced to one-element arrays on save and
therefore do not round-trip to themselves (see the counterexample). -/
theorem roundtrip_numeric_array_leaves (v : PyValue) (h : numericArrLeaves v = true) :
    (writeH5Val v).map readH5Node = some v ∧
    (writeZarrVal v).map readZarrNode = some v :=
  ⟨h5RtVal v h, zarrRtVal v h⟩

/-- Witness for C6 at a concrete input: a nested mapping with int64 and
float64 array leaves round-trips through both tree codecs. -/
theorem roundtrip_numeric_array_leaves_witness :
    (writeH5Val (.dict [("obs", .arr ⟨.float64, [2, 1], [.float 1, .float 2]⟩),
        ("meta", .dict [("ep", .arr ⟨.int64, [1], [.int 100]⟩)])])).map readH5Node =
      some (.dict [("obs", .arr ⟨.float64, [2, 1], [.float 1, .float 2]⟩),
        ("meta", .dict [("ep", .arr ⟨.int64, [1], [.int 100]⟩)])]) ∧
    (writeZarrVal (.dict [("obs", .arr ⟨.float64, [2, 1], [.float 1, .float 2]⟩),
        ("meta", .dict [("ep", .arr ⟨.int64, [1], [.int 100]⟩)])])).map readZarrNode =
      some (.dict [("obs", .arr ⟨.float64, [2, 1], [.float 1, .float 2]⟩),
        ("meta", .dict [("ep", .arr ⟨.int64, [1], [.int 100]⟩)])]) :=
  roundtrip_numeric_array_leaves
    (.dict [("obs", .arr ⟨.float64, [2, 1], [.float 1, .float 2]⟩),
      ("meta", .dict [("ep", .arr ⟨.int64, [1], [.int 100]⟩)])]) rfl

/-- C2: evaluating batch_convert on the claim's scenario — a source
directory with three HDF5 files, exactly one corrupted, and a fresh
target directory — the call returns normally but produces zero output
files instead of N−1 = 2: every per-file convert fails, because the
target loader's base-class constructor raises FileNotFoundError on the
not-yet-existing target file (the corrupted file fails earlier, at
load), and each failure is merely logged. -/
theorem batch_convert_fresh_targets_zero_outputs :
    dmDefault.batchConvert fsBatch ["srcd"] ["outd"] .hdf5 .hdf5 =
      (fsBatch, [],
       [((["srcd", "a.h5"], ["outd", "a.h5"]), .fileNotFound ["outd", "a.h5"]),
        ((["srcd", "b.h5"], ["outd", "b.h5"]), .fileNotFound ["outd", "b.h5"]),
        ((["srcd", "c.h5"], ["outd", "c.h5"]), .validationError "HDF5 loading failed")])
    ∧ ((fsFiles (dmDefault.batchConvert fsBatch ["srcd"] ["outd"] .hdf5 .hdf5).1).filter
        (fun q => underDir ["outd"] q)).length = 0 := ⟨rfl, rfl⟩

/-- C8: batch conversion isolates per-file failures: the loop catches
every per-file error into the failure log and goes on, so the successes
and logged failures together are exactly one attempt per enumerated
source file — no failure aborts the remaining files, and the call
itself always returns (it is a total function of its inputs). -/
theorem batch_isolates_per_file_failures (dm : DataManager) (fs : Fs)
    (srcDir tgtDir : RPath) (sf tf : FormatType) :
    ((dm.batchConvert fs srcDir tgtDir sf tf).2.1 ++
      (dm.batchConvert fs srcDir tgtDir sf tf).2.2.map Prod.fst).Perm
      ((findFiles fs srcDir sf).map fun f => (f, targetFor srcDir tgtDir tf f)) :=
  batchGo_attempts_perm dm sf tf srcDir tgtDir (findFiles fs srcDir sf) fs

/-- C9: batch conversion attempts exactly the files found by the
recursive walk whose name matches one of the source format's
extensions; every attempted output path is the file's relative path
under the target directory with its suffix rewritten to the target
format's extension; and the formats without an extension-table entry
(AUTO, RLDS, LeRobot) enumerate nothing, so no file is attempted. -/
theorem batch_enumeration_and_targets :
    (∀ (fs : Fs) (dir : RPath) (fmt : FormatType) (f : RPath),
        f ∈ findFiles fs dir fmt ↔
          (f ∈ fsFiles fs ∧ underDir dir f = true ∧
            ∃ ext ∈ extensionsOf fmt, strEndsWith (pathName f) ext = true))
    ∧ extensionsOf .auto = [] ∧ extensionsOf .rlds = [] ∧ extensionsOf .lerobot = []
    ∧ (∀ (dm : DataManager) (fs : Fs) (srcDir tgtDir : RPath) (tf fmt : FormatType),
        fmt ∈ [FormatType.auto, .rlds, .lerobot] →
          dm.batchConvert fs srcDir tgtDir fmt tf = (fs, [], []))
    ∧ (∀ (dm : DataManager) (fs : Fs) (srcDir tgtDir : RPath) (sf tf : FormatType)
        (pr : RPath × RPath),
        pr ∈ (dm.batchConvert fs srcDir tgtDir sf tf).2.1 ++
              (dm.batchConvert fs srcDir tgtDir sf tf).2.2.map Prod.fst →
          pr.1 ∈ findFiles fs srcDir sf ∧
          pr.2 = tgtDir ++ withSuffixPath (relativeTo pr.1 srcDir) (getExtension tf)) := by
  refine ⟨mem_findFiles, rfl, rfl, rfl, ?_, ?_⟩
  · intro dm fs srcDir tgtDir tf fmt hmem
    simp only [List.mem_cons, List.not_mem_nil, or_false] at hmem
    rcases hmem with rfl | rfl | rfl <;> rfl
  · intro dm fs srcDir tgtDir sf tf pr hpr
    have hperm := batchGo_attempts_perm dm sf tf srcDir tgtDir (findFiles fs srcDir sf) fs
    have hmem : pr ∈ (findFiles fs srcDir sf).map
        fun f => (f, targetFor srcDir tgtDir tf f) := hperm.mem_iff.mp hpr
    obtain ⟨f, hf, rfl⟩ := List.mem_map.mp hmem
    exact ⟨hf, rfl⟩

/-- Witness for C9 at concrete inputs: a batch conversion with source
format AUTO attempts nothing, and membership in the enumeration is as
characterized for a concrete filesystem. -/
theorem batch_enumeration_and_targets_witness :
    dmDefault.batchConvert [(["s", "x.h5"], FileContent.corruptedFile)] ["s"] ["t"]
        .auto .hdf5 = ([(["s", "x.h5"], FileContent.corruptedFile)], [], []) ∧
    (["s", "x.h5"] ∈ findFiles [(["s", "x.h5"], FileContent.corruptedFile)] ["s"] .hdf5 ↔
      (["s", "x.h5"] ∈ fsFiles [(["s", "x.h5"], FileContent.corruptedFile)] ∧
        underDir ["s"] ["s", "x.h5"] = true ∧
        ∃ ext ∈ extensionsOf .hdf5, strEndsWith (pathName ["s", "x.h5"]) ext = true)) :=
  ⟨batch_enumeration_and_targets.2.2.2.2.1 dmDefault
      [(["s", "x.h5"], FileContent.corruptedFile)] ["s"] ["t"] .hdf5 .auto (by decide),
    batch_enumeration_and_targets.1 [(["s", "x.h5"], FileContent.corruptedFile)]
      ["s"] .hdf5 ["s", "x.h5"]⟩

end RDM